import Mathlib

/-!
Verification development for the ssc-mod tire-curve research scripts.

The Python sources are shallowly embedded here:
* `src/research/custom_tire_curve_generator.py` — load scaling, the
  five-segment piecewise tire curve, and LUT normalization/serialization;
* `src/research/tire_chatter_generator.py` — the chatter overlay;
* `src/research/tire_curve_plotter.py` — the brush-model curve.

Floating-point arithmetic is modelled by exact real arithmetic over `ℝ`
(a float is a real number; `np.radians`, `np.exp`, `np.sin`, `np.cos`
become their real counterparts).  Python error behaviour that the claims
talk about is made explicit: the `**` operator is modelled with its
genuine Python semantics on floats (real result, complex result, or
`ZeroDivisionError`), the read of the possibly-unassigned local variable
`cornering_stiffness` is modelled by threading an `Option ℝ` state
(`none` = variable not yet assigned, a read of `none` =
`UnboundLocalError`), and numpy's silent division by zero is modelled by
an IEEE-style value type with `nan`/`inf` constructors.

The LUT text serializer of `generate_lut_file` is embedded over `ℚ`
(every float is a rational, and the claim under test is about the
decimal text round-trip), with lines as `List Char` and an executable
formatter and parser.
-/

namespace SSCMod

open Real Filter List

/-- Exceptions a modelled Python expression can raise. -/
inductive PyExn where
  | zeroDivisionError
  deriving DecidableEq

/-- Value of a Python arithmetic expression: a float (modelled as a real
number) or a complex number.  Python's float `**` silently produces a
`complex` when the base is negative and the exponent non-integral. -/
inductive PyVal where
  | real (r : ℝ)
  | cplx (z : ℂ)

/-- Python float division: raises `ZeroDivisionError` on a zero divisor,
otherwise real division. -/
noncomputable def pyDiv (a b : ℝ) : Except PyExn ℝ :=
  if b = 0 then .error .zeroDivisionError else .ok (a / b)

open Classical in
/-- Python float `**` on floats `x ** y`:
* positive base: real power (`Real.rpow`);
* zero base: `0` for positive exponent, `1` for zero exponent,
  `ZeroDivisionError` for negative exponent;
* negative base with an integral exponent: the real power (for an
  integer exponent `Real.rpow` agrees with the integer power, which is
  what Python computes);
* negative base with a non-integral exponent: Python silently returns a
  complex number, the principal value `(x : ℂ) ^ (y : ℂ)`. -/
noncomputable def pyPow (x y : ℝ) : Except PyExn PyVal :=
  if 0 < x then .ok (.real (x ^ y))
  else if x = 0 then
    if 0 < y then .ok (.real 0)
    else if y = 0 then .ok (.real 1)
    else .error .zeroDivisionError
  else if ∃ n : ℤ, (n : ℝ) = y then .ok (.real (x ^ y))
  else .ok (.cplx ((x : ℂ) ^ (y : ℂ)))

/-- `calculate_load_scaling(vertical_load, fz0, ls_exp)` from
`custom_tire_curve_generator.py` lines 10–15: literally
`(vertical_load / fz0) ** ls_exp`, with Python's division and power
semantics and no domain validation of any kind. -/
noncomputable def calculate_load_scaling (vertical_load fz0 ls_exp : ℝ) :
    Except PyExn PyVal :=
  (pyDiv vertical_load fz0).bind fun r => pyPow r ls_exp

/-- `np.radians`: degrees to radians. -/
noncomputable def rad (deg : ℝ) : ℝ := deg * (Real.pi / 180)

/-- `peak_grip = dy_ref * calculate_load_scaling(vertical_load, fz0, ls_exp)`
on the real-valued branch (the claims under test all assume
`vertical_load > 0` and `fz0 > 0`, where Python's `**` is the real
power; `calculate_load_scaling_pos` below connects the two). -/
noncomputable def peak_grip (dy_ref fz0 ls_exp vertical_load : ℝ) : ℝ :=
  dy_ref * (vertical_load / fz0) ^ ls_exp

/-- Segment 1 of `create_realistic_tire_curve` (`angle <= 2.0`):
`cornering_stiffness = peak_grip / np.radians(6.0)`;
`forces[i] = cornering_stiffness * np.radians(angle)`. -/
noncomputable def linear_force_seg (peak angle : ℝ) : ℝ :=
  (peak / rad 6.0) * rad angle

/-- Segment 2 of `create_realistic_tire_curve` (`2.0 < angle <= 5.5`),
reading the cornering stiffness `c` assigned by segment 1:
`linear_force = c * np.radians(2.0)`;
`transition_progress = (angle - 2.0) / (5.5 - 2.0)`;
`transition_factor = 3 * tp**2 - 2 * tp**3`;
`forces[i] = linear_force + (peak_grip - linear_force) * transition_factor`. -/
noncomputable def transition_seg (peak c angle : ℝ) : ℝ :=
  (c * rad 2.0) +
    (peak - c * rad 2.0) *
      (3 * ((angle - 2.0) / (5.5 - 2.0)) ^ 2 -
        2 * ((angle - 2.0) / (5.5 - 2.0)) ^ 3)

/-- Segment 3 of `create_realistic_tire_curve` (`5.5 < angle <= 8.0`):
`plateau_factor = 1.0 - 0.02 * (angle - 5.5)`;
`forces[i] = peak_grip * plateau_factor`. -/
noncomputable def plateau_seg (peak angle : ℝ) : ℝ :=
  peak * (1.0 - 0.02 * (angle - 5.5))

/-- Moderate falloff of `create_realistic_tire_curve`
(`8.0 < angle <= 12.0`): with `plateau_end_force = peak_grip * 0.95`,
`falloff_progress = (angle - 8.0) / (12.0 - 8.0)` and
`target_retention = 0.75`,
`forces[i] = plateau_end_force * (1.0 - falloff_progress * (1 - target_retention))`. -/
noncomputable def moderate_seg (peak angle : ℝ) : ℝ :=
  (peak * 0.95) * (1.0 - ((angle - 8.0) / (12.0 - 8.0)) * (1 - 0.75))

/-- Steep falloff of `create_realistic_tire_curve` (`angle > 12.0`):
with `initial_falloff = plateau_end_force * 0.75`,
`steep_progress = min((angle - 12.0) / 8.0, 1.0)` and
`final_retention = 0.60`,
`forces[i] = initial_falloff * (final_retention + (1 - final_retention) * (1 - steep_progress))`. -/
noncomputable def steep_seg (peak angle : ℝ) : ℝ :=
  ((peak * 0.95) * 0.75) *
    (0.60 + (1 - 0.60) * (1 - min ((angle - 12.0) / 8.0) 1.0))

/-- The `else` branch of `create_realistic_tire_curve` (`angle > 8.0`):
moderate falloff up to 12°, steep falloff beyond. -/
noncomputable def postPeak (peak angle : ℝ) : ℝ :=
  if angle ≤ 12.0 then moderate_seg peak angle else steep_seg peak angle

/-- One iteration of the loop body of `create_realistic_tire_curve`
(lines 28–67).  The state is the Python local `cornering_stiffness`:
`none` means the variable has not been assigned yet; segment 1 assigns
it, segment 2 reads it — a read while it is still unassigned is
Python's `UnboundLocalError`, modelled as `none`. -/
noncomputable def curve_step (peak : ℝ) (cs : Option ℝ) (angle : ℝ) :
    Option (Option ℝ × ℝ) :=
  if angle ≤ 2.0 then
    some (some (peak / rad 6.0), linear_force_seg peak angle)
  else if angle ≤ 5.5 then
    match cs with
    | none => none
    | some c => some (some c, transition_seg peak c angle)
  else if angle ≤ 8.0 then
    some (cs, plateau_seg peak angle)
  else
    some (cs, postPeak peak angle)

/-- The loop of `create_realistic_tire_curve`, threading the
`cornering_stiffness` state through the slip-angle samples.  `none`
means the loop raised `UnboundLocalError`. -/
noncomputable def curve_aux (peak : ℝ) : Option ℝ → List ℝ → Option (List ℝ)
  | _, [] => some []
  | cs, a :: rest =>
    (curve_step peak cs a).bind fun p =>
      (curve_aux peak p.1 rest).map fun fs => p.2 :: fs

/-- `create_realistic_tire_curve(slip_angles, dy_ref, fz0, ls_exp,
vertical_load)` from `custom_tire_curve_generator.py` lines 17–69,
for positive load and reference load (the claims' precondition), where
the load scaling is the real power. -/
noncomputable def create_realistic_tire_curve
    (slip_angles : List ℝ) (dy_ref fz0 ls_exp vertical_load : ℝ) :
    Option (List ℝ) :=
  curve_aux (peak_grip dy_ref fz0 ls_exp vertical_load) none slip_angles

/-- An IEEE-style numpy float: a finite real, `nan`, or a signed
infinity.  Used to model numpy's silent division by zero (in the chatter
progress expression and in the LUT normalization). -/
inductive NpVal where
  | num (r : ℝ)
  | nan
  | posInf
  | negInf

/-- numpy elementwise float division `x / m`: for `m = 0` numpy emits a
runtime warning and produces `nan` (for `0/0`) or a signed infinity —
it does not raise. -/
noncomputable def npdiv (x m : ℝ) : NpVal :=
  if m = 0 then
    if x = 0 then .nan else if 0 < x then .posInf else .negInf
  else .num (x / m)

/-- Python's builtin `min(x, c)` for a numpy float `x` and a finite
float `c`: CPython keeps the first argument unless `c < x` holds, so a
NaN first argument is returned unchanged (`c < nan` is false), `+inf`
becomes `c`, and `-inf` stays `-inf`. -/
noncomputable def pymin (x : NpVal) (c : ℝ) : NpVal :=
  match x with
  | .num r => .num (min r c)
  | .nan => .nan
  | .posInf => .num c
  | .negInf => .negInf

/-- `NpVal.atLeast c v`: the numpy value `v` is a finite real number at
least `c`.  A NaN or infinite value satisfies no such bound (Python's
`nan >= c` is false). -/
def NpVal.atLeast (c : ℝ) : NpVal → Prop
  | .num r => c ≤ r
  | _ => False

/-- The per-sample chatter overlay of `create_chatter_tire_curve`
(`tire_chatter_generator.py` lines 35–61): for `angle >= chatter_start`,

`chatter_progress = min((angle - chatter_start) / (20.0 - chatter_start), 1.0)`;
`high_freq = sin(angle * chatter_frequency * 8) * 0.6`;
`med_freq  = sin(angle * chatter_frequency * 3) * 0.3`;
`low_freq  = sin(angle * chatter_frequency * 1) * 0.1`;
`noise_component = high_freq + med_freq * cos(angle * 0.7) + low_freq * sin(angle * 1.3)`;
`scaled_noise = noise_component * chatter_intensity * chatter_progress`;
`random_factor = sin(angle * 13.7) * 0.1 + cos(angle * 7.3) * 0.05`;
`out = max(base * (1 + scaled_noise + random_factor * chatter_progress), base * 0.1)`;

for `angle < chatter_start` the base entry is left unchanged.

The progress division is numpy float division (`npdiv`): for
`chatter_start = 20.0` it is `0.0/0.0 = NaN` at a sample of exactly 20°
and `+inf` at samples beyond; `min(..., 1.0)` is Python's builtin
(`pymin`).  A NaN progress propagates through the arithmetic and
through Python's `max` — which keeps its first argument when the
comparison with NaN is false — so that sample's output is NaN.  The two
infinite constructors cannot reach the final match (`pymin` never
returns `+inf`, and a `-inf` progress would need `angle < chatter_start
= 20` inside the `chatter_start ≤ angle` branch); they are mapped to
themselves. -/
noncomputable def chatter_point
    (chatter_start chatter_intensity chatter_frequency angle base : ℝ) : NpVal :=
  if chatter_start ≤ angle then
    match pymin (npdiv (angle - chatter_start) (20.0 - chatter_start)) 1.0 with
    | .num p =>
        .num (max (base *
            (1 +
              (Real.sin (angle * chatter_frequency * 8) * 0.6 +
                  Real.sin (angle * chatter_frequency * 3) * 0.3 *
                    Real.cos (angle * 0.7) +
                  Real.sin (angle * chatter_frequency * 1) * 0.1 *
                    Real.sin (angle * 1.3)) *
                chatter_intensity * p +
              (Real.sin (angle * 13.7) * 0.1 + Real.cos (angle * 7.3) * 0.05) *
                p))
          (base * 0.1))
    | .nan => .nan
    | .posInf => .posInf
    | .negInf => .negInf
  else .num base

/-- The chatter overlay applied index-wise to a base force series
(`chattering_forces` loop of `create_chatter_tire_curve`). -/
noncomputable def create_chatter_forces
    (slip_angles base_forces : List ℝ)
    (chatter_start chatter_intensity chatter_frequency : ℝ) : List NpVal :=
  List.zipWith (chatter_point chatter_start chatter_intensity chatter_frequency)
    slip_angles base_forces

/-- `create_chatter_tire_curve` (`tire_chatter_generator.py` lines
11–63): the base curve from `create_realistic_tire_curve` with the
chatter overlay on top. -/
noncomputable def create_chatter_tire_curve
    (slip_angles : List ℝ) (dy_ref fz0 ls_exp vertical_load : ℝ)
    (chatter_start chatter_intensity chatter_frequency : ℝ) :
    Option (List NpVal) :=
  (create_realistic_tire_curve slip_angles dy_ref fz0 ls_exp vertical_load).map
    fun base =>
      create_chatter_forces slip_angles base
        chatter_start chatter_intensity chatter_frequency

/-- `ac_tire_model` (`tire_curve_plotter.py` lines 10–38), per sample:
`angle <= friction_limit_angle`: `dy_ref * np.radians(angle)`; above:
`excess_angle = angle - friction_limit_angle`,
`peak_force = dy_ref * np.radians(friction_limit_angle)`,
`falloff_factor = np.exp(-falloff_speed * excess_angle / friction_limit_angle)`,
`peak_force * (falloff_level + (1 - falloff_level) * falloff_factor)`. -/
noncomputable def ac_tire_model
    (dy_ref friction_limit_angle falloff_level falloff_speed angle : ℝ) : ℝ :=
  if angle ≤ friction_limit_angle then dy_ref * rad angle
  else
    (dy_ref * rad friction_limit_angle) *
      (falloff_level + (1 - falloff_level) *
        Real.exp (-falloff_speed * (angle - friction_limit_angle) /
          friction_limit_angle))

/-- `np.max` over a (nonempty) list. -/
noncomputable def npmax : List ℝ → ℝ
  | [] => 0
  | a :: l => l.foldl max a

/-- The normalization step of `generate_lut_file`
(`custom_tire_curve_generator.py` lines 76–78):
`peak_force = np.max(forces)`; `normalized_forces = forces / peak_force`
— an unconditional numpy elementwise division with no degenerate-curve
check. -/
noncomputable def normalize_forces (forces : List ℝ) : List NpVal :=
  forces.map fun x => npdiv x (npmax forces)

/-! ### The LUT text serializer, over `ℚ`

`generate_lut_file` writes one line `f"{angle:.1f}|{force:.4f}"` per
sample.  Every float is a rational number, and Python's fixed-point
formatting rounds the exact value half-to-even at the requested number
of decimals, so the serializer is embedded executably over `ℚ`, with a
text line as a `List Char`. -/

/-- Round half-to-even (the rounding used by Python float formatting on
the exact value of the argument). -/
def roundHalfEven (x : ℚ) : ℤ :=
  if x - ⌊x⌋ < 1 / 2 then ⌊x⌋
  else if 1 / 2 < x - ⌊x⌋ then ⌊x⌋ + 1
  else if ⌊x⌋ % 2 = 0 then ⌊x⌋ else ⌊x⌋ + 1

/-- The value printed by fixed-point formatting with `d` decimal digits:
the argument rounded to `d` decimal places. -/
def roundTo (d : ℕ) (x : ℚ) : ℚ :=
  (roundHalfEven (x * 10 ^ d) : ℚ) / 10 ^ d

/-- The ASCII digit character for a digit value. -/
def digitChar (k : ℕ) : Char := Char.ofNat (48 + k)

/-- The digit value of an ASCII digit character. -/
def charVal (c : Char) : ℕ := c.toNat - 48

/-- Little-endian base-10 digits with explicit fuel (structural
recursion; `natDigits` instantiates the fuel with the number itself). -/
def natDigitsAux : ℕ → ℕ → List ℕ
  | _, 0 => []
  | 0, _ + 1 => []
  | fuel + 1, n + 1 => (n + 1) % 10 :: natDigitsAux fuel ((n + 1) / 10)

/-- Little-endian base-10 digits of a natural number (empty for `0`). -/
def natDigits (n : ℕ) : List ℕ := natDigitsAux n n

/-- The decimal digit characters of a natural number, most significant
first (`"0"` for zero), as printed by Python. -/
def digitChars (n : ℕ) : List Char :=
  if n = 0 then ['0'] else ((natDigits n).map digitChar).reverse

/-- Left-pad with `'0'` to length `d` (fractional parts are printed with
exactly `d` digits). -/
def padZeros (d : ℕ) (l : List Char) : List Char :=
  List.replicate (d - l.length) '0' ++ l

/-- Python `f"{x:.df}"`: fixed-point formatting of `x` with exactly `d`
digits after the decimal point. -/
def fmtFixed (d : ℕ) (x : ℚ) : List Char :=
  (if roundHalfEven (x * 10 ^ d) < 0 then ['-'] else []) ++
    digitChars ((roundHalfEven (x * 10 ^ d)).natAbs / 10 ^ d) ++
    '.' :: padZeros d (digitChars ((roundHalfEven (x * 10 ^ d)).natAbs % 10 ^ d))

/-- Split a character list on a separator character (like
`str.split(sep)`: `n` separators produce `n + 1` fields). -/
def splitOnChar (c : Char) : List Char → List (List Char)
  | [] => [[]]
  | x :: xs =>
    if x = c then [] :: splitOnChar c xs
    else
      match splitOnChar c xs with
      | [] => [[x]]
      | g :: gs => (x :: g) :: gs

/-- The natural number denoted by a string of decimal digit characters,
most significant first. -/
def charsToNat (l : List Char) : ℕ :=
  l.foldl (fun acc c => acc * 10 + charVal c) 0

/-- The rational denoted by an unsigned fixed-point decimal string
(`"<int digits>.<frac digits>"`). -/
def parseUnsignedQ (l : List Char) : ℚ :=
  match splitOnChar '.' l with
  | [ip, fp] => (charsToNat ip : ℚ) + (charsToNat fp : ℚ) / 10 ^ fp.length
  | _ => (charsToNat l : ℚ)

/-- The rational denoted by a fixed-point decimal string with an
optional leading minus sign. -/
def parseFixedQ (l : List Char) : ℚ :=
  if l.head? = some '-' then -parseUnsignedQ l.tail else parseUnsignedQ l

/-- One LUT data line, `f"{angle:.1f}|{force:.4f}"`
(`custom_tire_curve_generator.py` line 89). -/
def lutLine (angle force : ℚ) : List Char :=
  fmtFixed 1 angle ++ '|' :: fmtFixed 4 force

/-- The LUT document written by `generate_lut_file`: the header comment
lines followed by one data line per sample, in input (ascending-angle)
order. -/
def serializeLUT (header : List (List Char)) (angles forces : List ℚ) :
    List (List Char) :=
  header ++ List.zipWith lutLine angles forces

/-- A LUT comment line: first character `';'`. -/
def isCommentLine : List Char → Bool
  | [] => false
  | c :: _ => c == ';'

/-- Re-parse one LUT data line by splitting on `'|'` into exactly two
numeric fields. -/
def parseLine (l : List Char) : Option (ℚ × ℚ) :=
  match splitOnChar '|' l with
  | [a, f] => some (parseFixedQ a, parseFixedQ f)
  | _ => none

/-- Parse a list of data lines. -/
def parseLines : List (List Char) → Option (List (ℚ × ℚ))
  | [] => some []
  | l :: ls =>
    match parseLine l, parseLines ls with
    | some p, some ps => some (p :: ps)
    | _, _ => none

/-- Re-parse a LUT document: drop comment lines, parse each data line. -/
def parseLUT (lines : List (List Char)) : Option (List (ℚ × ℚ)) :=
  parseLines (lines.filter fun l => !isCommentLine l)

/-! ### Helper lemmas about the piecewise curve builder -/

lemma curve_step_some (peak c a : ℝ) :
    ∃ c' v, curve_step peak (some c) a = some (some c', v) := by
  unfold curve_step
  by_cases h1 : a ≤ 2.0
  · rw [if_pos h1]; exact ⟨_, _, rfl⟩
  · rw [if_neg h1]
    by_cases h2 : a ≤ 5.5
    · rw [if_pos h2]; exact ⟨_, _, rfl⟩
    · rw [if_neg h2]
      by_cases h3 : a ≤ 8.0
      · rw [if_pos h3]; exact ⟨_, _, rfl⟩
      · rw [if_neg h3]; exact ⟨_, _, rfl⟩

lemma curve_aux_of_state (peak : ℝ) (l : List ℝ) :
    ∀ c : ℝ, ∃ fs, curve_aux peak (some c) l = some fs ∧ fs.length = l.length := by
  induction l with
  | nil => exact fun c => ⟨[], rfl, rfl⟩
  | cons a rest ih =>
    intro c
    obtain ⟨c', v, hstep⟩ := curve_step_some peak c a
    obtain ⟨fs, hfs, hlen⟩ := ih c'
    exact ⟨v :: fs, by simp [curve_aux, hstep, hfs], by simp [hlen]⟩

lemma curve_step_none_high (peak a : ℝ) (ha : 5.5 < a) :
    curve_step peak none a =
      some (none, if a ≤ 8.0 then plateau_seg peak a else postPeak peak a) := by
  unfold curve_step
  rw [if_neg (by linarith), if_neg (by linarith)]
  by_cases h3 : a ≤ 8.0
  · rw [if_pos h3, if_pos h3]
  · rw [if_neg h3, if_neg h3]

lemma curve_aux_none_high (peak : ℝ) (l : List ℝ) (hl : ∀ x ∈ l, 5.5 < x) :
    ∃ fs, curve_aux peak none l = some fs ∧ fs.length = l.length := by
  induction l with
  | nil => exact ⟨[], rfl, rfl⟩
  | cons a rest ih =>
    have ha : 5.5 < a := hl a (by simp)
    obtain ⟨fs, hfs, hlen⟩ := ih fun x hx => hl x (by simp [hx])
    exact ⟨(if a ≤ 8.0 then plateau_seg peak a else postPeak peak a) :: fs,
      by simp [curve_aux, curve_step_none_high peak a ha, hfs], by simp [hlen]⟩

lemma curve_step_high (peak a : ℝ) (cs : Option ℝ) (ha : 8.0 < a) :
    curve_step peak cs a = some (cs, postPeak peak a) := by
  unfold curve_step
  rw [if_neg (by linarith), if_neg (by linarith), if_neg (by linarith)]

lemma curve_aux_get_high (peak : ℝ) :
    ∀ (angles : List ℝ) (cs : Option ℝ) (fs : List ℝ),
      curve_aux peak cs angles = some fs →
      fs.length = angles.length ∧
        ∀ (i : ℕ) (h1 : i < angles.length) (h2 : i < fs.length),
          8.0 < angles.get ⟨i, h1⟩ →
          fs.get ⟨i, h2⟩ = postPeak peak (angles.get ⟨i, h1⟩) := by
  intro angles
  induction angles with
  | nil =>
    intro cs fs h
    simp only [curve_aux, Option.some.injEq] at h
    subst h
    exact ⟨rfl, fun i h1 => absurd h1 (by simp)⟩
  | cons a rest ih =>
    intro cs fs h
    rw [curve_aux] at h
    rcases hstep : curve_step peak cs a with _ | ⟨cs', v⟩ <;> rw [hstep] at h
    · cases h
    · simp only [Option.some_bind, Option.map_eq_some'] at h
      obtain ⟨fs0, haux, hcons⟩ := h
      subst hcons
      obtain ⟨hlen0, hget0⟩ := ih cs' fs0 haux
      refine ⟨by simp [hlen0], ?_⟩
      intro i h1 h2 hgt
      cases i with
      | zero =>
        have : curve_step peak cs a = some (cs, postPeak peak a) :=
          curve_step_high peak a cs (by simpa using hgt)
        rw [hstep] at this
        have hv : v = postPeak peak a := by
          injection this with h'
          exact congrArg Prod.snd h'
        simpa using hv
      | succ n =>
        have h1' : n < rest.length := by simpa using h1
        have h2' : n < fs0.length := by simpa using h2
        have := hget0 n h1' h2' (by simpa using hgt)
        simpa using this

/-! ### Claim C10 -/

/-- C10: the piecewise curve is continuous at every internal segment
boundary — with stiffness `peak_grip / radians(6.0)`, the linear
formula at 2.0° equals the transition formula's value there (`t = 0`);
the transition formula at 5.5° (`t = 1`) equals `peak_grip`, matching
the plateau formula's value at 5.5°; the plateau formula at 8.0° equals
`peak_grip * 0.95`, matching the moderate-falloff value at progress 0;
and the moderate-falloff value at 12.0° equals `0.75 * peak_grip * 0.95`,
matching the steep-falloff value at progress 0. -/
theorem c10_continuity (peak : ℝ) :
    linear_force_seg peak 2.0 = transition_seg peak (peak / rad 6.0) 2.0 ∧
    transition_seg peak (peak / rad 6.0) 5.5 = peak ∧
    plateau_seg peak 5.5 = peak ∧
    plateau_seg peak 8.0 = peak * 0.95 ∧
    moderate_seg peak 8.0 = peak * 0.95 ∧
    moderate_seg peak 12.0 = 0.75 * (peak * 0.95) ∧
    steep_seg peak 12.0 = 0.75 * (peak * 0.95) := by
  refine ⟨?_, ?_, ?_, ?_, ?_, ?_, ?_⟩
  · unfold linear_force_seg transition_seg
    norm_num
  · unfold transition_seg
    norm_num
  · unfold plateau_seg
    norm_num
  · unfold plateau_seg
    ring_nf
  · unfold moderate_seg
    norm_num
  · unfold moderate_seg
    ring_nf
  · unfold steep_seg
    norm_num
    ring

/-! ### Claim C1 -/

/-- C1 counterexample: the strictly increasing, non-negative series
`[3.0]` together with valid parameters (`dy_ref = fz0 = vertical_load
= 1 > 0`) makes `create_realistic_tire_curve` hit the transition
segment (`2.0 < 3.0 ≤ 5.5`) with the local `cornering_stiffness` still
unassigned — the code raises `UnboundLocalError` (modelled by `none`)
instead of returning a force series, so `build` does have an error path
besides load-scaler failure. -/
theorem c1_counterexample :
    List.Pairwise (· < ·) ([3] : List ℝ) ∧ (∀ x ∈ ([3] : List ℝ), (0:ℝ) ≤ x) ∧
      ((0:ℝ) < 1) ∧
      create_realistic_tire_curve [3] 1 1 1 1 = none := by
  refine ⟨by simp, by norm_num, by norm_num, ?_⟩
  rw [create_realistic_tire_curve, curve_aux, curve_step]
  rw [if_neg (by norm_num), if_pos (by norm_num)]
  rfl

/-- C1 (amended): for every strictly increasing finite series of
non-negative angles **whose first sample is not inside the transition
interval 2.0 < angle ≤ 5.5** and every valid parameter set
(`dy_ref > 0`, `fz0 > 0`, `vertical_load > 0`), `build` returns a force
series of the same length without raising.  If the first sample lies in
`(2.0, 5.5]`, the transition formula reads the still-unassigned local
`cornering_stiffness` and the builder raises `UnboundLocalError`
(`c1_counterexample`); for any other starting sample every transition
sample is preceded by a linear-segment sample that assigns the
stiffness, and no error path remains. -/
theorem c1_build_total_amended
    (angles : List ℝ) (dy_ref fz0 ls_exp vertical_load : ℝ)
    (hinc : angles.Pairwise (· < ·))
    (hnn : ∀ x ∈ angles, 0 ≤ x)
    (hd : 0 < dy_ref) (hf : 0 < fz0) (hv : 0 < vertical_load)
    (hhead : ∀ a, angles.head? = some a → a ≤ 2.0 ∨ 5.5 < a) :
    (create_realistic_tire_curve angles dy_ref fz0 ls_exp vertical_load).map
        List.length = some angles.length := by
  cases angles with
  | nil => rfl
  | cons a rest =>
    rcases hhead a rfl with h2 | h55
    · obtain ⟨fs, hfs, hlen⟩ :=
        curve_aux_of_state (peak_grip dy_ref fz0 ls_exp vertical_load) rest
          (peak_grip dy_ref fz0 ls_exp vertical_load / rad 6.0)
      rw [create_realistic_tire_curve, curve_aux, curve_step, if_pos h2]
      simp [hfs, hlen]
    · have hall : ∀ x ∈ a :: rest, 5.5 < x := by
        intro x hx
        rcases List.mem_cons.mp hx with rfl | hx'
        · exact h55
        · have := (List.pairwise_cons.mp hinc).1 x hx'
          linarith
      obtain ⟨fs, hfs, hlen⟩ :=
        curve_aux_none_high (peak_grip dy_ref fz0 ls_exp vertical_load)
          (a :: rest) hall
      rw [create_realistic_tire_curve, hfs]
      simp [hlen]

/-- Witness for `c1_build_total_amended` at the series `[1, 3]` and
parameters `dy_ref = fz0 = ls_exp = vertical_load = 1`. -/
theorem c1_build_total_amended_witness :
    (create_realistic_tire_curve [1, 3] 1 1 1 1).map List.length = some 2 :=
  c1_build_total_amended [1, 3] 1 1 1 1
    (by norm_num) (by norm_num) (by norm_num) (by norm_num) (by norm_num)
    (by intro a ha; left; injection ha with h; rw [← h]; norm_num)

/-! ### Claim C4 -/

/-- C4: for every valid parameter set (with
`peak_grip = dy_ref * (vertical_load / fz0) ** ls_exp`) and every
successfully built force series: at every index whose angle lies in
`(8.0, 12.0]` the force equals the linear interpolation from
`plateau_end = peak_grip * 0.95` at 8° down to `0.75 * plateau_end` at
12°; at every index whose angle exceeds 12.0 it equals the linear
interpolation from `0.75 * plateau_end` toward a 60% retention floor
with progress `(angle - 12) / 8` clamped at 1; hence at every index
whose angle is at least 20.0 the force is the constant
`0.60 * 0.75 * 0.95 * peak_grip`. -/
theorem c4_falloff
    (angles : List ℝ) (dy_ref fz0 ls_exp vertical_load : ℝ)
    (hd : 0 < dy_ref) (hf : 0 < fz0) (hv : 0 < vertical_load)
    (fs : List ℝ)
    (hb : create_realistic_tire_curve angles dy_ref fz0 ls_exp vertical_load =
      some fs)
    (i : ℕ) (h1 : i < angles.length) (h2 : i < fs.length) :
    (8.0 < angles.get ⟨i, h1⟩ ∧ angles.get ⟨i, h1⟩ ≤ 12.0 →
      fs.get ⟨i, h2⟩ =
        peak_grip dy_ref fz0 ls_exp vertical_load * 0.95 +
          (0.75 * (peak_grip dy_ref fz0 ls_exp vertical_load * 0.95) -
              peak_grip dy_ref fz0 ls_exp vertical_load * 0.95) *
            ((angles.get ⟨i, h1⟩ - 8.0) / (12.0 - 8.0))) ∧
    (12.0 < angles.get ⟨i, h1⟩ →
      fs.get ⟨i, h2⟩ =
        0.75 * (peak_grip dy_ref fz0 ls_exp vertical_load * 0.95) *
          (1 - (1 - 0.60) * min ((angles.get ⟨i, h1⟩ - 12.0) / 8.0) 1.0)) ∧
    (20.0 ≤ angles.get ⟨i, h1⟩ →
      fs.get ⟨i, h2⟩ =
        0.60 * (0.75 * (0.95 * peak_grip dy_ref fz0 ls_exp vertical_load))) := by
  rw [create_realistic_tire_curve] at hb
  obtain ⟨hlen, hget⟩ :=
    curve_aux_get_high (peak_grip dy_ref fz0 ls_exp vertical_load) angles none fs hb
  refine ⟨?_, ?_, ?_⟩
  · rintro ⟨hgt, hle⟩
    rw [hget i h1 h2 hgt, postPeak, if_pos hle, moderate_seg]
    ring
  · intro hgt
    rw [hget i h1 h2 (by linarith), postPeak, if_neg (by linarith), steep_seg]
    ring
  · intro hge
    rw [hget i h1 h2 (by linarith), postPeak, if_neg (by linarith), steep_seg]
    rw [min_eq_right ((le_div_iff₀ (by norm_num)).mpr (by linarith))]
    ring

/-- Witness for `c4_falloff`: the series `[9, 13, 21]` with parameters
`dy_ref = fz0 = ls_exp = vertical_load = 1` (so `peak_grip = 1`) builds
successfully, and the sample at 21° sits on the 60% retention floor. -/
theorem c4_falloff_witness :
    create_realistic_tire_curve [9, 13, 21] 1 1 1 1 =
        some [0.890625, 0.676875, 0.4275] ∧
      (20.0 ≤ ([9, 13, 21] : List ℝ).get ⟨2, by decide⟩ →
        ([0.890625, 0.676875, 0.4275] : List ℝ).get ⟨2, by decide⟩ =
          0.60 * (0.75 * (0.95 * peak_grip 1 1 1 1))) := by
  have hpeak : peak_grip 1 1 1 1 = 1 := by
    unfold peak_grip
    norm_num
  have hb : create_realistic_tire_curve [9, 13, 21] 1 1 1 1 =
      some [0.890625, 0.676875, 0.4275] := by
    rw [create_realistic_tire_curve, hpeak]
    rw [curve_aux, curve_step_high 1 9 none (by norm_num), Option.some_bind]
    rw [curve_aux, curve_step_high 1 13 none (by norm_num), Option.some_bind]
    rw [curve_aux, curve_step_high 1 21 none (by norm_num), Option.some_bind]
    rw [curve_aux]
    norm_num [postPeak, moderate_seg, steep_seg, min_def]
  exact ⟨hb,
    (c4_falloff [9, 13, 21] 1 1 1 1 (by norm_num) (by norm_num) (by norm_num)
        [0.890625, 0.676875, 0.4275] hb 2 (by decide) (by decide)).2.2⟩

/-! ### Claims C5 and C6 -/

lemma chatter_point_floor
    (chatter_start chatter_intensity chatter_frequency a b : ℝ) (hb : 0 ≤ b)
    (hne : ¬(chatter_start = 20 ∧ a = 20)) :
    NpVal.atLeast (0.1 * b)
      (chatter_point chatter_start chatter_intensity chatter_frequency a b) := by
  rw [chatter_point]
  by_cases hguard : chatter_start ≤ a
  · rw [if_pos hguard]
    by_cases hden : (20.0 : ℝ) - chatter_start = 0
    · have hs20 : chatter_start = 20 := by linarith
      have ha20 : a ≠ 20 := fun h => hne ⟨hs20, h⟩
      have hnum : 0 < a - chatter_start := by
        rcases lt_or_eq_of_le hguard with h | h
        · linarith
        · exact absurd (hs20 ▸ h.symm) ha20
      rw [npdiv, if_pos hden, if_neg (by linarith), if_pos hnum]
      simp only [pymin, NpVal.atLeast]
      calc (0.1 : ℝ) * b = b * 0.1 := by ring
      _ ≤ _ := le_max_right _ _
    · rw [npdiv, if_neg hden]
      simp only [pymin, NpVal.atLeast]
      calc (0.1 : ℝ) * b = b * 0.1 := by ring
      _ ≤ _ := le_max_right _ _
  · rw [if_neg hguard]
    simp only [NpVal.atLeast]
    linarith

/-- C5 counterexample: within the claim's documented bounds
(`start_angle = 20 ≥ 0`, `intensity = 1 ∈ [0, 1]`, `frequency = 1 > 0`,
non-negative base `[1]`), a sample at exactly 20° makes the progress
expression numpy's `0.0 / 0.0 = NaN`; the NaN propagates through the
noise arithmetic and through Python's `max`, so the overlay outputs NaN
— which is not `≥ 0.1 * base = 0.1`.  The claimed floor is violated. -/
theorem c5_counterexample :
    (0 : ℝ) ≤ 20 ∧ ((0 : ℝ) ≤ 1 ∧ (1 : ℝ) ≤ 1) ∧ (0 : ℝ) < 1 ∧
      (∀ x ∈ ([1] : List ℝ), (0 : ℝ) ≤ x) ∧
      create_chatter_forces [20] [1] 20 1 1 = [NpVal.nan] := by
  refine ⟨by norm_num, ⟨by norm_num, le_rfl⟩, by norm_num, by simp, ?_⟩
  show [chatter_point 20 1 1 20 1] = [NpVal.nan]
  rw [chatter_point, if_pos (le_refl (20 : ℝ))]
  rw [npdiv, if_pos (by norm_num : (20.0 : ℝ) - 20 = 0),
    if_pos (by norm_num : (20 : ℝ) - 20 = 0)]
  rfl

/-- C5 (amended): for every slip-angle series, every non-negative base
force series, and every chatter configuration with `start_angle ≥ 0`,
`intensity ∈ [0, 1]`, `frequency > 0`: at every index **except the
degenerate combination `start_angle = 20` with a sample at exactly
20°** the chatter overlay output is a real number at least `0.1` times
the base force at that index — the `max(..., base * 0.1)` floor clamp
never lets the overlay remove more than 90% of the base force.  In the
excluded case the progress expression is numpy's `0.0/0.0 = NaN` and
the output is NaN (`c5_counterexample`). -/
theorem c5_chatter_floor
    (slip_angles base_forces : List ℝ)
    (chatter_start chatter_intensity chatter_frequency : ℝ)
    (hs : 0 ≤ chatter_start) (hi0 : 0 ≤ chatter_intensity)
    (hi1 : chatter_intensity ≤ 1) (hf : 0 < chatter_frequency)
    (hb : ∀ x ∈ base_forces, 0 ≤ x)
    (i : ℕ) (h0 : i < slip_angles.length) (h1 : i < base_forces.length)
    (h2 : i < (create_chatter_forces slip_angles base_forces
        chatter_start chatter_intensity chatter_frequency).length)
    (hne : ¬(chatter_start = 20 ∧ slip_angles.get ⟨i, h0⟩ = 20)) :
    NpVal.atLeast (0.1 * base_forces.get ⟨i, h1⟩)
      ((create_chatter_forces slip_angles base_forces
          chatter_start chatter_intensity chatter_frequency).get ⟨i, h2⟩) := by
  have h2' := h2
  rw [create_chatter_forces] at h2'
  simp only [List.get_eq_getElem, create_chatter_forces, List.getElem_zipWith]
  refine chatter_point_floor _ _ _ _ _
    (hb _ (List.getElem_mem (lt_length_right_of_zipWith h2'))) ?_
  simpa only [List.get_eq_getElem] using hne

/-- Witness for `c5_chatter_floor` at the series `[0]`, base `[1]`,
configuration `start = 0`, `intensity = 1`, `frequency = 1`. -/
theorem c5_chatter_floor_witness :
    NpVal.atLeast (0.1 * ([1] : List ℝ).get ⟨0, by decide⟩)
      ((create_chatter_forces [0] [1] 0 1 1).get
        ⟨0, by simp [create_chatter_forces]⟩) :=
  c5_chatter_floor [0] [1] 0 1 1 (by norm_num) (by norm_num) (by norm_num)
    (by norm_num) (by simp) 0 (by decide) (by decide)
    (by simp [create_chatter_forces]) (by norm_num)

/-- C6: at every index whose slip angle is strictly below
`chatter_start`, the chatter overlay output is exactly the base series
value at that index (the finite float `NpVal.num` of the base entry) —
the entry is left completely unchanged. -/
theorem c6_chatter_identity
    (slip_angles base_forces : List ℝ)
    (chatter_start chatter_intensity chatter_frequency : ℝ)
    (i : ℕ) (h0 : i < slip_angles.length) (h1 : i < base_forces.length)
    (h2 : i < (create_chatter_forces slip_angles base_forces
        chatter_start chatter_intensity chatter_frequency).length)
    (hlt : slip_angles.get ⟨i, h0⟩ < chatter_start) :
    (create_chatter_forces slip_angles base_forces
        chatter_start chatter_intensity chatter_frequency).get ⟨i, h2⟩ =
      NpVal.num (base_forces.get ⟨i, h1⟩) := by
  simp only [List.get_eq_getElem, create_chatter_forces, List.getElem_zipWith]
  rw [chatter_point, if_neg (not_le.mpr ?_)]
  simpa only [List.get_eq_getElem] using hlt

/-- Witness for `c6_chatter_identity`: angle 1 below `start = 2` leaves
the base value 5 unchanged. -/
theorem c6_chatter_identity_witness :
    (create_chatter_forces [1] [5] 2 1 1).get
        ⟨0, by simp [create_chatter_forces]⟩ =
      NpVal.num (([5] : List ℝ).get ⟨0, by decide⟩) :=
  c6_chatter_identity [1] [5] 2 1 1 0 (by decide) (by decide)
    (by simp [create_chatter_forces]) (by norm_num)

/-! ### Claims C7 and C3 -/

lemma foldl_max_div (M : ℝ) (hM : 0 ≤ M) :
    ∀ (l : List ℝ) (a : ℝ),
      (l.map fun x => x / M).foldl max (a / M) = l.foldl max a / M := by
  intro l
  induction l with
  | nil => intro a; rfl
  | cons b t ih =>
    intro a
    simp only [List.map_cons, List.foldl_cons]
    rw [max_div_div_right hM a b]
    exact ih (max a b)

lemma npmax_map_div (l : List ℝ) (hne : l ≠ []) (M : ℝ) (hM : 0 ≤ M) :
    npmax (l.map fun x => x / M) = npmax l / M := by
  cases l with
  | nil => exact absurd rfl hne
  | cons a t => simpa [npmax] using foldl_max_div M hM t a

/-- C7: on a non-empty force series with strictly positive maximum, the
normalization step returns a series of the same length, each element
being the input element divided by the input maximum, and the maximum
of the output equals exactly 1 (in particular within the floating
tolerance `1e-9`). -/
theorem c7_normalize (forces : List ℝ) (hne : forces ≠ [])
    (hpos : 0 < npmax forces) :
    (normalize_forces forces).length = forces.length ∧
    normalize_forces forces =
      forces.map (fun x => NpVal.num (x / npmax forces)) ∧
    npmax (forces.map fun x => x / npmax forces) = 1 ∧
    |npmax (forces.map fun x => x / npmax forces) - 1| ≤ 1 / 1000000000 := by
  have hfun : (fun x => npdiv x (npmax forces)) =
      fun x => NpVal.num (x / npmax forces) := by
    funext x
    rw [npdiv, if_neg (ne_of_gt hpos)]
  have hmap : normalize_forces forces =
      forces.map (fun x => NpVal.num (x / npmax forces)) := by
    rw [normalize_forces, hfun]
  have h1 : npmax (forces.map fun x => x / npmax forces) = 1 := by
    rw [npmax_map_div forces hne _ (le_of_lt hpos),
      div_self (ne_of_gt hpos)]
  exact ⟨by rw [hmap]; simp, hmap, h1, by rw [h1]; norm_num⟩

/-- Witness for `c7_normalize` on the series `[1, 2]` (maximum 2). -/
theorem c7_normalize_witness :
    npmax (([1, 2] : List ℝ).map fun x => x / npmax [1, 2]) = 1 :=
  (c7_normalize [1, 2] (by simp)
    (by norm_num [npmax, List.foldl, max_def])).2.2.1

/-- C3 counterexample: on the all-zero series `[0, 0]` (maximum 0) the
normalizer does not fail with any degenerate-curve error — it silently
divides by zero, numpy-style, and returns a series of NaN values. -/
theorem c3_counterexample :
    normalize_forces [0, 0] = [NpVal.nan, NpVal.nan] := by
  have hm : npmax [0, 0] = 0 := by norm_num [npmax, List.foldl, max_def]
  simp [normalize_forces, npdiv, hm]

/-- C3 (amended): the normalization step has no degenerate-curve check
at all: on an all-zero series of any length it silently returns a
series of NaN values (numpy's `0/0`) instead of raising; no error of
any kind is signalled. -/
theorem c3_normalize_amended (n : ℕ) :
    normalize_forces (List.replicate n 0) = List.replicate n NpVal.nan := by
  have hfold : ∀ k : ℕ, List.foldl max (0:ℝ) (List.replicate k 0) = 0 := by
    intro k
    induction k with
    | zero => rfl
    | succ m ih => rw [List.replicate_succ, List.foldl_cons, max_self]; exact ih
  have hm : npmax (List.replicate n (0:ℝ)) = 0 := by
    cases n with
    | zero => rfl
    | succ k => rw [List.replicate_succ, npmax]; exact hfold k
  rw [normalize_forces, hm]
  simp [npdiv, List.map_replicate]

/-! ### Claim C2 -/

/-- C2 counterexample: `calculate_load_scaling(-1, 1, 0.5)` — a
non-positive load with a non-integer exponent — does not reject with
any explicit error: Python's float `**` silently returns the complex
number `i`, which the function propagates. -/
theorem c2_counterexample :
    calculate_load_scaling (-1) 1 (1 / 2) = .ok (.cplx Complex.I) := by
  have hnoint : ¬∃ n : ℤ, (n : ℝ) = (1 / 2 : ℝ) := by
    rintro ⟨n, hn⟩
    have h2 : ((2 * n : ℤ) : ℝ) = 1 := by push_cast; linarith
    have h3 : (2 * n : ℤ) = 1 := by exact_mod_cast h2
    omega
  have hpow : pyPow (-1) (1 / 2) =
      .ok (.cplx (((-1 : ℝ) : ℂ) ^ (((1 / 2 : ℝ)) : ℂ))) := by
    rw [pyPow, if_neg (by norm_num), if_neg (by norm_num), if_neg hnoint]
  have hI : (((-1 : ℝ) : ℂ)) ^ (((1 / 2 : ℝ)) : ℂ) = Complex.I := by
    have hb : ((-1 : ℝ) : ℂ) = -1 := by push_cast; ring
    have he : (((1 / 2 : ℝ)) : ℂ) = 1 / 2 := by push_cast; ring
    rw [hb, he, Complex.cpow_def_of_ne_zero (by norm_num), Complex.log_neg_one]
    have harg : (Real.pi : ℂ) * Complex.I * (1 / 2) =
        ((Real.pi / 2 : ℝ) : ℂ) * Complex.I := by
      push_cast
      ring
    rw [harg, Complex.exp_mul_I, ← Complex.ofReal_cos, ← Complex.ofReal_sin,
      Real.cos_pi_div_two, Real.sin_pi_div_two]
    simp
  have hdiv : ((-1 : ℝ)) / 1 = -1 := by norm_num
  rw [calculate_load_scaling, pyDiv, if_neg (by norm_num : (1:ℝ) ≠ 0), hdiv]
  show pyPow (-1) (1 / 2) = Except.ok (PyVal.cplx Complex.I)
  rw [hpow, hI]

/-- C2 (amended): `calculate_load_scaling` performs no domain
validation of any kind.  For `load > 0` and `fz0 > 0` it returns the
real value `(load / fz0) ** ls_exp`, as the claim states; but for a
non-positive load with a non-integer exponent it does **not** reject
with an explicit DomainError — it silently returns a complex value
(`c2_counterexample`), and a zero `fz0` raises a generic
`ZeroDivisionError`, not a DomainError. -/
theorem c2_scale_amended (vertical_load fz0 ls_exp : ℝ)
    (hv : 0 < vertical_load) (hf : 0 < fz0) :
    calculate_load_scaling vertical_load fz0 ls_exp =
      .ok (.real ((vertical_load / fz0) ^ ls_exp)) := by
  rw [calculate_load_scaling, pyDiv, if_neg (ne_of_gt hf)]
  show pyPow (vertical_load / fz0) ls_exp = _
  rw [pyPow, if_pos (div_pos hv hf)]

/-- Witness for `c2_scale_amended` at `load = 2`, `fz0 = 1`,
`ls_exp = 3`. -/
theorem c2_scale_amended_witness :
    calculate_load_scaling 2 1 3 = .ok (.real (((2 : ℝ) / 1) ^ (3 : ℝ))) :=
  c2_scale_amended 2 1 3 (by norm_num) (by norm_num)

/-! ### Claim C8 -/

/-- C8: for the brush model with `dy_ref > 0`,
`friction_limit_angle > 0`, `falloff_level ∈ [0, 1)`,
`falloff_speed > 0`: at `angle = friction_limit_angle` the force equals
`dy_ref * radians(friction_limit_angle)`; for every finite
`angle > friction_limit_angle` it equals
`peak * (falloff_level + (1 - falloff_level) * exp(-falloff_speed * (angle - friction_limit_angle) / friction_limit_angle))`
with `peak = dy_ref * radians(friction_limit_angle)`, which is strictly
greater than `peak * falloff_level`; and the force tends to
`peak * falloff_level` as the angle grows without bound. -/
theorem c8_brush_model
    (dy_ref friction_limit_angle falloff_level falloff_speed : ℝ)
    (hd : 0 < dy_ref) (hfla : 0 < friction_limit_angle)
    (hfl0 : 0 ≤ falloff_level) (hfl1 : falloff_level < 1)
    (hfs : 0 < falloff_speed) :
    ac_tire_model dy_ref friction_limit_angle falloff_level falloff_speed
        friction_limit_angle = dy_ref * rad friction_limit_angle ∧
    (∀ angle, friction_limit_angle < angle →
      ac_tire_model dy_ref friction_limit_angle falloff_level falloff_speed
          angle =
        (dy_ref * rad friction_limit_angle) *
          (falloff_level + (1 - falloff_level) *
            Real.exp (-falloff_speed * (angle - friction_limit_angle) /
              friction_limit_angle))) ∧
    (∀ angle, friction_limit_angle < angle →
      (dy_ref * rad friction_limit_angle) * falloff_level <
        ac_tire_model dy_ref friction_limit_angle falloff_level falloff_speed
          angle) ∧
    Tendsto
      (ac_tire_model dy_ref friction_limit_angle falloff_level falloff_speed)
      atTop
      (nhds ((dy_ref * rad friction_limit_angle) * falloff_level)) := by
  have hpeak : 0 < dy_ref * rad friction_limit_angle := by
    apply mul_pos hd
    rw [rad]
    positivity
  have hfe : ∀ angle, friction_limit_angle < angle →
      ac_tire_model dy_ref friction_limit_angle falloff_level falloff_speed
          angle =
        (dy_ref * rad friction_limit_angle) *
          (falloff_level + (1 - falloff_level) *
            Real.exp (-falloff_speed * (angle - friction_limit_angle) /
              friction_limit_angle)) := by
    intro angle h
    rw [ac_tire_model, if_neg (not_le.mpr h)]
  refine ⟨by rw [ac_tire_model, if_pos le_rfl], hfe, ?_, ?_⟩
  · intro angle h
    rw [hfe angle h]
    have hE := Real.exp_pos
      (-falloff_speed * (angle - friction_limit_angle) / friction_limit_angle)
    have h1 : 0 < (1 - falloff_level) *
        Real.exp (-falloff_speed * (angle - friction_limit_angle) /
          friction_limit_angle) :=
      mul_pos (by linarith) hE
    nlinarith
  · have hg : Tendsto
        (fun a : ℝ =>
          -falloff_speed * (a - friction_limit_angle) / friction_limit_angle)
        atTop atBot := by
      have hfun : (fun a : ℝ =>
            -falloff_speed * (a - friction_limit_angle) / friction_limit_angle) =
          fun a : ℝ =>
            (-(falloff_speed / friction_limit_angle)) * a + falloff_speed := by
        funext a
        field_simp
        ring
      rw [hfun]
      apply tendsto_atBot_add_const_right
      exact (tendsto_const_mul_atBot_of_neg
        (neg_lt_zero.mpr (div_pos hfs hfla))).mpr tendsto_id
    have hexp : Tendsto
        (fun a : ℝ => Real.exp
          (-falloff_speed * (a - friction_limit_angle) / friction_limit_angle))
        atTop (nhds 0) := Real.tendsto_exp_atBot.comp hg
    have hmain : Tendsto
        (fun a : ℝ =>
          (dy_ref * rad friction_limit_angle) *
            (falloff_level + (1 - falloff_level) *
              Real.exp (-falloff_speed * (a - friction_limit_angle) /
                friction_limit_angle)))
        atTop
        (nhds ((dy_ref * rad friction_limit_angle) * falloff_level)) := by
      have h1 := ((hexp.const_mul (1 - falloff_level)).const_add
        falloff_level).const_mul (dy_ref * rad friction_limit_angle)
      have h2 : dy_ref * rad friction_limit_angle *
          (falloff_level + (1 - falloff_level) * 0) =
          dy_ref * rad friction_limit_angle * falloff_level := by ring
      rwa [h2] at h1
    apply hmain.congr'
    filter_upwards [eventually_gt_atTop friction_limit_angle] with a ha
    rw [hfe a ha]

/-- Witness for `c8_brush_model` at `dy_ref = 1`,
`friction_limit_angle = 1`, `falloff_level = 0`, `falloff_speed = 1`:
the force at the friction-limit angle is the linear value there. -/
theorem c8_brush_model_witness :
    ac_tire_model 1 1 0 1 1 = 1 * rad 1 :=
  (c8_brush_model 1 1 0 1 (by norm_num) (by norm_num) (by norm_num)
    (by norm_num) (by norm_num)).1

/-! ### Claim C9: the LUT text round-trip -/

lemma charVal_digitChar : ∀ k, k < 10 → charVal (digitChar k) = k := by decide

lemma digitChar_range :
    ∀ k, k < 10 → 48 ≤ (digitChar k).toNat ∧ (digitChar k).toNat ≤ 57 := by
  decide

lemma natDigitsAux_lt : ∀ (fuel n : ℕ), ∀ k ∈ natDigitsAux fuel n, k < 10 := by
  intro fuel
  induction fuel with
  | zero =>
    intro n k hk
    cases n with
    | zero => cases hk
    | succ m => cases hk
  | succ f ih =>
    intro n k hk
    cases n with
    | zero => cases hk
    | succ m =>
      rw [natDigitsAux] at hk
      rcases List.mem_cons.mp hk with rfl | hk'
      · exact Nat.mod_lt _ (by norm_num)
      · exact ih _ _ hk'

lemma charsToNat_go :
    ∀ (fuel n : ℕ), n ≤ fuel → ∀ acc : ℕ,
      List.foldl (fun acc c => acc * 10 + charVal c) acc
          (((natDigitsAux fuel n).map digitChar).reverse) =
        acc * 10 ^ (natDigitsAux fuel n).length + n := by
  intro fuel
  induction fuel with
  | zero =>
    intro n hn acc
    have h0 : n = 0 := Nat.le_zero.mp hn
    subst h0
    simp [natDigitsAux]
  | succ f ih =>
    intro n hn acc
    cases n with
    | zero => simp [natDigitsAux]
    | succ m =>
      rw [natDigitsAux, List.map_cons, List.reverse_cons, List.foldl_append]
      have hle : (m + 1) / 10 ≤ f := by
        have h1 : (m + 1) / 10 < m + 1 :=
          Nat.div_lt_self (Nat.succ_pos m) (by norm_num)
        omega
      rw [ih ((m + 1) / 10) hle acc]
      simp only [List.foldl_cons, List.foldl_nil, List.length_cons]
      rw [charVal_digitChar _ (Nat.mod_lt _ (by norm_num))]
      have hdm : 10 * ((m + 1) / 10) + (m + 1) % 10 = m + 1 :=
        Nat.div_add_mod (m + 1) 10
      calc (acc * 10 ^ (natDigitsAux f ((m + 1) / 10)).length +
            (m + 1) / 10) * 10 + (m + 1) % 10 =
          acc * (10 ^ (natDigitsAux f ((m + 1) / 10)).length * 10) +
            (10 * ((m + 1) / 10) + (m + 1) % 10) := by ring
      _ = acc * 10 ^ ((natDigitsAux f ((m + 1) / 10)).length + 1) + (m + 1) := by
          rw [hdm, pow_succ]

lemma charsToNat_digitChars (n : ℕ) : charsToNat (digitChars n) = n := by
  rw [digitChars]
  by_cases h : n = 0
  · subst h
    rfl
  · rw [if_neg h, charsToNat, natDigits]
    have := charsToNat_go n n le_rfl 0
    simpa using this

lemma foldl_zero_replicate :
    ∀ k : ℕ,
      List.foldl (fun acc c => acc * 10 + charVal c) 0
        (List.replicate k '0') = 0 := by
  intro k
  induction k with
  | zero => rfl
  | succ m ih =>
    rw [List.replicate_succ, List.foldl_cons]
    exact ih

lemma charsToNat_padZeros (d : ℕ) (l : List Char) :
    charsToNat (padZeros d l) = charsToNat l := by
  rw [padZeros, charsToNat, List.foldl_append, foldl_zero_replicate, charsToNat]

lemma natDigitsAux_length :
    ∀ (fuel n d : ℕ), n ≤ fuel → n < 10 ^ d →
      (natDigitsAux fuel n).length ≤ d := by
  intro fuel
  induction fuel with
  | zero =>
    intro n d hn _
    have h0 : n = 0 := Nat.le_zero.mp hn
    subst h0
    simp [natDigitsAux]
  | succ f ih =>
    intro n d hn hlt
    cases n with
    | zero => simp [natDigitsAux]
    | succ m =>
      cases d with
      | zero => exact absurd hlt (by simp)
      | succ e =>
        rw [natDigitsAux, List.length_cons]
        have h1 : (m + 1) / 10 ≤ f := by
          have := Nat.div_lt_self (Nat.succ_pos m) (by norm_num : 1 < 10)
          omega
        have h2 : (m + 1) / 10 < 10 ^ e := by
          rw [Nat.div_lt_iff_lt_mul (by norm_num : 0 < 10)]
          calc m + 1 < 10 ^ (e + 1) := hlt
          _ = 10 ^ e * 10 := by rw [pow_succ]
        exact Nat.succ_le_succ (ih _ _ h1 h2)

lemma digitChars_length_le (n d : ℕ) (hd : 0 < d) (hn : n < 10 ^ d) :
    (digitChars n).length ≤ d := by
  rw [digitChars]
  by_cases h : n = 0
  · rw [if_pos h]
    simpa using hd
  · rw [if_neg h]
    simpa [natDigits] using natDigitsAux_length n n d le_rfl hn

lemma padZeros_length (d : ℕ) (l : List Char) (h : l.length ≤ d) :
    (padZeros d l).length = d := by
  rw [padZeros]
  simp only [List.length_append, List.length_replicate]
  omega

lemma digitChars_mem (n : ℕ) :
    ∀ c ∈ digitChars n, 48 ≤ c.toNat ∧ c.toNat ≤ 57 := by
  intro c hc
  rw [digitChars] at hc
  by_cases h : n = 0
  · rw [if_pos h] at hc
    have : c = '0' := by simpa using hc
    subst this
    decide
  · rw [if_neg h, List.mem_reverse, List.mem_map] at hc
    obtain ⟨k, hk, rfl⟩ := hc
    exact digitChar_range k (natDigitsAux_lt n n k hk)

lemma padZeros_mem (d : ℕ) (l : List Char)
    (hl : ∀ c ∈ l, 48 ≤ c.toNat ∧ c.toNat ≤ 57) :
    ∀ c ∈ padZeros d l, 48 ≤ c.toNat ∧ c.toNat ≤ 57 := by
  intro c hc
  rw [padZeros, List.mem_append] at hc
  rcases hc with hc | hc
  · have h0 : c = '0' := List.eq_of_mem_replicate hc
    subst h0
    decide
  · exact hl c hc

lemma digitChars_ne_nil (n : ℕ) : digitChars n ≠ [] := by
  rw [digitChars]
  by_cases h : n = 0
  · rw [if_pos h]
    simp
  · rw [if_neg h]
    simp only [ne_eq, List.reverse_eq_nil_iff, List.map_eq_nil_iff]
    cases hn : n with
    | zero => exact absurd hn h
    | succ m =>
      rw [natDigits, natDigitsAux]
      exact List.cons_ne_nil _ _

lemma splitOnChar_not_mem (c : Char) :
    ∀ l : List Char, c ∉ l → splitOnChar c l = [l] := by
  intro l
  induction l with
  | nil => intro _; rfl
  | cons x xs ih =>
    intro h
    rw [splitOnChar]
    rw [if_neg (by intro he; subst he; exact h (List.mem_cons_self x xs))]
    rw [ih fun hm => h (List.mem_cons_of_mem x hm)]

lemma splitOnChar_append (c : Char) :
    ∀ (l1 l2 : List Char), c ∉ l1 →
      splitOnChar c (l1 ++ c :: l2) = l1 :: splitOnChar c l2 := by
  intro l1
  induction l1 with
  | nil =>
    intro l2 _
    show splitOnChar c (c :: l2) = [] :: splitOnChar c l2
    rw [splitOnChar, if_pos rfl]
  | cons x xs ih =>
    intro l2 h
    show splitOnChar c (x :: (xs ++ c :: l2)) = (x :: xs) :: splitOnChar c l2
    rw [splitOnChar]
    rw [if_neg (by intro he; subst he; exact h (List.mem_cons_self x xs))]
    rw [ih l2 fun hm => h (List.mem_cons_of_mem x hm)]

lemma nat_div_mod_q (s d : ℕ) :
    ((s / 10 ^ d : ℕ) : ℚ) + ((s % 10 ^ d : ℕ) : ℚ) / (10 : ℚ) ^ d =
      (s : ℚ) / (10 : ℚ) ^ d := by
  have hs : (10 ^ d * (s / 10 ^ d) + s % 10 ^ d : ℕ) = s :=
    Nat.div_add_mod s (10 ^ d)
  have h10 : ((10 : ℚ)) ^ d ≠ 0 := by positivity
  conv_rhs => rw [← hs]
  push_cast
  field_simp
  ring

lemma parseUnsignedQ_eq (l ip fp : List Char)
    (h : splitOnChar '.' l = [ip, fp]) :
    parseUnsignedQ l =
      (charsToNat ip : ℚ) + (charsToNat fp : ℚ) / 10 ^ fp.length := by
  rw [parseUnsignedQ, h]

lemma fmtFixed_mem (d : ℕ) (x : ℚ) :
    ∀ c ∈ fmtFixed d x,
      c.toNat = 45 ∨ c.toNat = 46 ∨ (48 ≤ c.toNat ∧ c.toNat ≤ 57) := by
  intro c hc
  rw [fmtFixed, List.mem_append, List.mem_append] at hc
  rcases hc with (hc | hc) | hc
  · left
    by_cases hneg : roundHalfEven (x * 10 ^ d) < 0
    · rw [if_pos hneg] at hc
      have : c = '-' := by simpa using hc
      subst this
      rfl
    · rw [if_neg hneg] at hc
      cases hc
  · right; right
    exact digitChars_mem _ c hc
  · rcases List.mem_cons.mp hc with rfl | hc'
    · right; left; rfl
    · right; right
      exact padZeros_mem d _ (digitChars_mem _) c hc'

lemma not_pipe_mem_fmtFixed (d : ℕ) (x : ℚ) : '|' ∉ fmtFixed d x := by
  intro h
  have hm := fmtFixed_mem d x '|' h
  revert hm
  decide

lemma unsignedBody_parse (d : ℕ) (hd : 0 < d) (s : ℕ) :
    parseUnsignedQ (digitChars (s / 10 ^ d) ++
        '.' :: padZeros d (digitChars (s % 10 ^ d))) =
      (s : ℚ) / (10 : ℚ) ^ d := by
  have hdot1 : '.' ∉ digitChars (s / 10 ^ d) := by
    intro h
    have hm := digitChars_mem _ _ h
    revert hm
    decide
  have hdot2 : '.' ∉ padZeros d (digitChars (s % 10 ^ d)) := by
    intro h
    have hm := padZeros_mem d _ (digitChars_mem _) _ h
    revert hm
    decide
  have hsplit : splitOnChar '.'
      (digitChars (s / 10 ^ d) ++ '.' :: padZeros d (digitChars (s % 10 ^ d))) =
      [digitChars (s / 10 ^ d), padZeros d (digitChars (s % 10 ^ d))] := by
    rw [splitOnChar_append '.' _ _ hdot1, splitOnChar_not_mem '.' _ hdot2]
  rw [parseUnsignedQ_eq _ _ _ hsplit, charsToNat_digitChars, charsToNat_padZeros,
    charsToNat_digitChars,
    padZeros_length d _
      (digitChars_length_le _ d hd
        (Nat.mod_lt _ (pow_pos (by norm_num : (0:ℕ) < 10) d)))]
  exact nat_div_mod_q s d

lemma parseFixedQ_neg_case (l : List Char) :
    parseFixedQ ('-' :: l) = -parseUnsignedQ l := by
  rw [parseFixedQ]
  simp

lemma parseFixedQ_fmtFixed (d : ℕ) (hd : 0 < d) (x : ℚ) :
    parseFixedQ (fmtFixed d x) = roundTo d x := by
  rw [roundTo]
  by_cases hneg : roundHalfEven (x * 10 ^ d) < 0
  · rw [fmtFixed, if_pos hneg, List.singleton_append, List.cons_append,
      parseFixedQ_neg_case, unsignedBody_parse d hd _, Int.cast_natAbs,
      abs_of_neg hneg]
    push_cast
    ring
  · rw [fmtFixed, if_neg hneg, List.nil_append]
    have hhead : (digitChars ((roundHalfEven (x * 10 ^ d)).natAbs / 10 ^ d) ++
        '.' :: padZeros d (digitChars ((roundHalfEven (x * 10 ^ d)).natAbs % 10 ^ d))).head? ≠
        some '-' := by
      cases hip : digitChars ((roundHalfEven (x * 10 ^ d)).natAbs / 10 ^ d) with
      | nil => exact absurd hip (digitChars_ne_nil _)
      | cons c0 rest =>
        simp only [List.cons_append, List.head?_cons]
        intro hc
        injection hc with hc
        subst hc
        have hmem : '-' ∈ digitChars ((roundHalfEven (x * 10 ^ d)).natAbs / 10 ^ d) := by
          rw [hip]
          exact List.mem_cons_self _ _
        have hm := digitChars_mem _ _ hmem
        revert hm
        decide
    rw [parseFixedQ, if_neg hhead, unsignedBody_parse d hd _, Int.cast_natAbs,
      abs_of_nonneg (not_lt.mp hneg)]

lemma parseLine_lutLine (a f : ℚ) :
    parseLine (lutLine a f) = some (roundTo 1 a, roundTo 4 f) := by
  have hsplit : splitOnChar '|' (fmtFixed 1 a ++ '|' :: fmtFixed 4 f) =
      [fmtFixed 1 a, fmtFixed 4 f] := by
    rw [splitOnChar_append '|' _ _ (not_pipe_mem_fmtFixed 1 a),
      splitOnChar_not_mem '|' _ (not_pipe_mem_fmtFixed 4 f)]
  rw [lutLine, parseLine, hsplit]
  show some (parseFixedQ (fmtFixed 1 a), parseFixedQ (fmtFixed 4 f)) =
    some (roundTo 1 a, roundTo 4 f)
  rw [parseFixedQ_fmtFixed 1 (by norm_num) a, parseFixedQ_fmtFixed 4 (by norm_num) f]

lemma lutLine_not_comment (a f : ℚ) : isCommentLine (lutLine a f) = false := by
  cases hc : lutLine a f with
  | nil => rfl
  | cons c0 rest =>
    have hmem : c0 ∈ lutLine a f := by
      rw [hc]
      exact List.mem_cons_self _ _
    have hm : c0.toNat = 45 ∨ c0.toNat = 46 ∨
        (48 ≤ c0.toNat ∧ c0.toNat ≤ 57) ∨ c0.toNat = 124 := by
      rw [lutLine, List.mem_append] at hmem
      rcases hmem with h | h
      · rcases fmtFixed_mem 1 a c0 h with h' | h' | h'
        · exact Or.inl h'
        · exact Or.inr (Or.inl h')
        · exact Or.inr (Or.inr (Or.inl h'))
      · rcases List.mem_cons.mp h with rfl | h'
        · exact Or.inr (Or.inr (Or.inr rfl))
        · rcases fmtFixed_mem 4 f c0 h' with h'' | h'' | h''
          · exact Or.inl h''
          · exact Or.inr (Or.inl h'')
          · exact Or.inr (Or.inr (Or.inl h''))
    have hne : c0 ≠ ';' := by
      intro he
      subst he
      revert hm
      decide
    rw [isCommentLine]
    exact beq_eq_false_iff_ne.mpr hne

lemma parseLines_zipWith :
    ∀ angles forces : List ℚ,
      parseLines (List.zipWith lutLine angles forces) =
        some (List.zipWith (fun a f => (roundTo 1 a, roundTo 4 f)) angles forces) := by
  intro angles
  induction angles with
  | nil => intro forces; rfl
  | cons a as ih =>
    intro forces
    cases forces with
    | nil => rfl
    | cons f fs =>
      rw [List.zipWith_cons_cons, parseLines, parseLine_lutLine, ih fs,
        List.zipWith_cons_cons]

lemma filter_zipWith_lutLine :
    ∀ angles forces : List ℚ,
      (List.zipWith lutLine angles forces).filter (fun l => !isCommentLine l) =
        List.zipWith lutLine angles forces := by
  intro angles
  induction angles with
  | nil => intro forces; rfl
  | cons a as ih =>
    intro forces
    cases forces with
    | nil => rfl
    | cons f fs =>
      rw [List.zipWith_cons_cons, List.filter_cons]
      simp only [lutLine_not_comment a f, Bool.not_false, if_pos]
      rw [ih fs]

/-- C9: serializing a slip-angle series and an equal-length normalized
force series to LUT text (header comment lines prefixed with `';'`
followed by one data line per sample, angle with 1 decimal, a `'|'`
separator, force with 4 decimals, in ascending angle order) and
re-parsing each data line by splitting on `'|'` reproduces the original
angle and force values rounded to 1 and 4 decimal digits respectively. -/
theorem c9_roundtrip (header : List (List Char)) (angles forces : List ℚ)
    (hh : ∀ l ∈ header, isCommentLine l = true)
    (hlen : angles.length = forces.length)
    (hinc : angles.Pairwise (· < ·)) :
    parseLUT (serializeLUT header angles forces) =
      some (List.zipWith (fun a f => (roundTo 1 a, roundTo 4 f)) angles forces) := by
  rw [parseLUT, serializeLUT, List.filter_append]
  have h1 : header.filter (fun l => !isCommentLine l) = [] := by
    rw [List.filter_eq_nil_iff]
    intro l hl
    simp [hh l hl]
  rw [h1, List.nil_append, filter_zipWith_lutLine, parseLines_zipWith]

/-- Witness for `c9_roundtrip`: the header `[";"]` with angles
`[0, 1]` and forces `[1, 1/2]`. -/
theorem c9_roundtrip_witness :
    parseLUT (serializeLUT [[';']] [0, 1] [1, 1 / 2]) =
      some (List.zipWith (fun a f => (roundTo 1 a, roundTo 4 f))
        [0, 1] [1, 1 / 2]) :=
  c9_roundtrip [[';']] [0, 1] [1, 1 / 2]
    (by intro l hl; simp at hl; subst hl; rfl) rfl
    (by norm_num [List.pairwise_cons])

end SSCMod
